import Mathlib

/-!
Shallow embedding of src/DasService.ts, the DAS backend of a multi-backend
naming-resolution library.  Asynchronous methods that consult the injected
transport provider are modelled as pure functions taking the transport
response as an explicit argument; failure (a thrown JavaScript error) is
modelled with Except.
-/

namespace Das

/-! ## JavaScript string primitives used by the source -/

/-- Models String.prototype.toLowerCase on one character.  The record keys of
this service are ASCII (for example "address.ETH"), so the ASCII mapping
A..Z to a..z is the relevant fragment of the Unicode mapping. -/
def jsCharToLower (c : Char) : Char :=
  if 65 ≤ c.toNat ∧ c.toNat ≤ 90 then Char.ofNat (c.toNat + 32) else c

/-- Models String.prototype.toLowerCase (ASCII fragment, see jsCharToLower). -/
def jsToLower (s : String) : String :=
  String.mk (s.data.map jsCharToLower)

/-- The character is an ASCII uppercase letter A..Z. -/
def isAsciiUpperChar (c : Char) : Bool :=
  decide (65 ≤ c.toNat ∧ c.toNat ≤ 90)

/-- The string contains at least one ASCII uppercase letter. -/
def hasAsciiUpper (s : String) : Bool :=
  s.data.any isAsciiUpperChar

/-- Models String.prototype.split with separator "." on the character list of
the string: JavaScript split never returns an empty array, and empty labels
appear for leading, trailing or consecutive separators. -/
def splitOnDotChars : List Char → List (List Char)
  | [] => [[]]
  | c :: rest =>
    if c = '.' then [] :: splitOnDotChars rest
    else
      match splitOnDotChars rest with
      | [] => [[c]]
      | l :: ls => (c :: l) :: ls

/-- Models account.split(".") from the source. -/
def jsSplitDot (s : String) : List String :=
  (splitOnDotChars s.data).map (fun l => String.mk l)

/-- Models Array.prototype.join(".") from the source. -/
def joinDot (l : List String) : String :=
  String.intercalate "." l

/-- A JavaScript number as produced by the Number conversion of a ttl wire
string: either a value or NaN. -/
inductive JsNumber where
  | num (v : Nat)
  | nan
deriving DecidableEq, Repr

/-- Decimal value of a digit list. -/
def decValue (l : List Char) : Nat :=
  l.foldl (fun n c => n * 10 + (c.toNat - 48)) 0

/-- Models the JavaScript Number conversion on the ttl wire strings, which
are unsigned decimal strings such as "300": the empty string converts to 0,
a digit string to its decimal value, anything else to NaN. -/
def jsNumber (s : String) : JsNumber :=
  if s.data = [] then .num 0
  else if s.data.all Char.isDigit then .num (decValue s.data) else .nan

/-- Models building a plain JavaScript object by assigning, in list order,
the property keyOf r to the value valOf r: a later assignment to the same
key overwrites an earlier one.  Used for the forEach and reduce loops of
allRecords, records and resolveOneFromRecords. -/
def jsObjFromList {α β : Type} (keyOf : α → String) (valOf : α → β)
    (l : List α) : String → Option β :=
  l.foldl (fun m r => fun q => if q = keyOf r then some (valOf r) else m q)
    (fun _ => none)

/-- Models the expression (records[key] || ""): undefined and the empty
string are falsy, so both yield the empty string. -/
def jsOrEmpty (o : Option String) : String :=
  match o with
  | some v => if v = "" then "" else v
  | none => ""

/-- JavaScript truthiness of an optional string field: absent (undefined)
and the empty string are falsy. -/
def jsTruthyOptStr : Option String → Bool
  | none => false
  | some s => decide (s ≠ "")

/-! ## Error model (errors/configurationError.ts, errors/resolutionError.ts) -/

inductive ResolutionErrorCode where
  | UnregisteredDomain
  | RecordNotFound
  | UnsupportedMethod
deriving DecidableEq, Repr

structure ResolutionError where
  code : ResolutionErrorCode
  domain : String
  recordName : Option String := none
  methodName : Option String := none
deriving DecidableEq, Repr

inductive ConfigurationErrorCode where
  | UnspecifiedUrl
  | UnsupportedNetwork
deriving DecidableEq, Repr

structure ConfigurationError where
  code : ConfigurationErrorCode
  method : String
deriving DecidableEq, Repr

/-- A thrown JavaScript value: a typed ResolutionError or ConfigurationError,
or a plain Error with a message (thrown by reverse). -/
inductive DasError where
  | resolution (e : ResolutionError)
  | configuration (e : ConfigurationError)
  | jsError (message : String)
deriving DecidableEq, Repr

/-- Modelled from the spec: the name of this backend in the shared
NamingServiceName enumeration (types/publicTypes.ts is not part of the
staged sources). -/
def NamingServiceName.DAS : String := "DAS"

/-- Modelled from the spec: the runtype guard for the supported network set,
given in the spec as the set mainnet, testnet, aggron (types/index.ts is not
part of the staged sources). -/
def DasSupportedNetwork.guard (network : String) : Bool :=
  (["mainnet", "testnet", "aggron"] : List String).contains network

/-- Modelled from the spec: the four named record categories of
types/AccountData.ts, which the spec lists as profile, address, dweb and
custom; a record type is its raw first key segment, so the constants are the
literal category names. -/
def AccountRecordTypes.profile : String := "profile"

def AccountRecordTypes.address : String := "address"

def AccountRecordTypes.dweb : String := "dweb"

def AccountRecordTypes.custom : String := "custom"

/-! ## Wire data and the typed model (types/AccountData.ts) -/

/-- One record as delivered on the wire by das_searchAccount: ttl is still a
string and the derived fields are not yet written. -/
structure RawAccountRecord where
  key : String
  value : String
  ttl : String
deriving DecidableEq, Repr

/-- One record after getAccountData wrote the derived fields onto it. -/
structure AccountRecord where
  key : String
  value : String
  ttl : JsNumber
  type : String
  strippedKey : String
deriving DecidableEq, Repr

/-- The account_data payload as delivered on the wire. -/
structure RawAccountData where
  account : String
  owner_lock_args_hex : String
  records : List RawAccountRecord
deriving DecidableEq, Repr

/-- The account_data payload after normalization. -/
structure AccountData where
  account : String
  owner_lock_args_hex : String
  records : List AccountRecord
deriving DecidableEq, Repr

/-- The data member of a das_searchAccount response that does carry a data
payload. -/
structure AccountDataCell where
  account_data : RawAccountData
deriving DecidableEq, Repr

/-- One entry of the das_getAddressAccount response list. -/
structure ReverseAccountItem where
  account : String
deriving DecidableEq, Repr

/-! ## The service and its constructor -/

/-- The transport provider: either the FetchProvider the constructor builds
from the url, or an externally injected provider object (opaque here). -/
inductive Provider where
  | fetchProvider (name : String) (url : String)
  | injected (id : Nat)
deriving DecidableEq, Repr

/-- The recognized construction options, each optional as in DasSource. -/
structure DasSource where
  url : Option String := none
  network : Option String := none
  provider : Option Provider := none
deriving DecidableEq, Repr

/-- The constructed service state: the fields the constructor stores. -/
structure DasService where
  network : String
  url : Option String
  provider : Provider
deriving DecidableEq, Repr

/-- The DasService constructor.  The first guard is
(!(source.url || source.provider)): a provider object is always truthy, a
url string is truthy iff present and non-empty.  An absent or empty network
is reassigned to "mainnet" before the runtype guard runs. -/
def DasService.construct (source : DasSource) : Except DasError DasService :=
  if !(jsTruthyOptStr source.url || source.provider.isSome) then
    .error (.configuration { code := .UnspecifiedUrl, method := NamingServiceName.DAS })
  else
    let network := if jsTruthyOptStr source.network then source.network.getD "" else "mainnet"
    if !(DasSupportedNetwork.guard network) then
      .error (.configuration { code := .UnsupportedNetwork, method := NamingServiceName.DAS })
    else
      .ok { network := network
            url := source.url
            provider := source.provider.getD
              (Provider.fetchProvider NamingServiceName.DAS (source.url.getD "")) }

/-! ## Domain syntax validator -/

/-- The list starts with the four characters ".bit" (the literal part of the
regex). -/
def isDotBitAt (l : List Char) : Bool :=
  List.isPrefixOf [ '.', 'b', 'i', 't' ] l

/-- The character is one of the four ECMAScript LineTerminators (LF, CR,
LINE SEPARATOR U+2028, PARAGRAPH SEPARATOR U+2029), the exact set the
unescaped regex dot does not match. -/
def isLineTerminator (c : Char) : Bool :=
  c == '\n' || c == '\r' || c.toNat == 0x2028 || c.toNat == 0x2029

/-- The test of the unanchored regex from the source, written over the
character list: it succeeds iff some character that is not a LineTerminator
(the dot of the regex matches any character but those) is immediately
followed by the four characters ".bit". -/
def hasCharThenDotBit : List Char → Bool
  | [] => false
  | c :: rest => (!(isLineTerminator c) && isDotBitAt rest) || hasCharThenDotBit rest

/-- isSupportedDomain from the source: the unanchored regex test, and every
label of the split on "." is non-empty (Boolean of the label length). -/
def isSupportedDomain (account : String) : Bool :=
  hasCharThenDotBit account.data
    && (splitOnDotChars account.data).all (fun v => v.length != 0)

/-- Stated from the claim wording for comparison: the string ends with the
literal suffix ".bit". -/
def specEndsWithDotBit (s : String) : Bool :=
  List.isSuffixOf [ '.', 'b', 'i', 't' ] s.data

/-! ## Account data resolver -/

/-- The normalization loop body of getAccountData: convert ttl with Number,
split the key on ".", shift off the first segment as the type and rejoin the
rest as the strippedKey. -/
def normalizeRecord (r : RawAccountRecord) : AccountRecord :=
  let keyParts := jsSplitDot r.key
  { key := r.key
    value := r.value
    ttl := jsNumber r.ttl
    type := keyParts.headD ""
    strippedKey := joinDot keyParts.tail }

/-- getAccountData: the das_searchAccount response is passed in as the
optional data member (absent data models a response with no data payload).
An absent payload raises UnregisteredDomain; otherwise every record gets the
derived fields written and the normalized account_data is returned. -/
def getAccountData (account : String) (resp : Option AccountDataCell) :
    Except DasError AccountData :=
  match resp with
  | none => .error (.resolution { code := .UnregisteredDomain, domain := account })
  | some cell =>
    .ok { account := cell.account_data.account
          owner_lock_args_hex := cell.account_data.owner_lock_args_hex
          records := cell.account_data.records.map normalizeRecord }

/-! ## Query surface -/

/-- The flattened map the allRecords forEach loop builds: each record is
assigned under its lower-cased key, so a later record overwrites an earlier
one sharing the same lower-cased key. -/
def allRecordsMapOf (records : List AccountRecord) : String → Option String :=
  jsObjFromList (fun r => jsToLower r.key) (fun r => r.value) records

/-- allRecords.  The else branch of the source (returning an empty object
when data is falsy) is unreachable: getAccountData either throws or returns
the account_data object, which is truthy. -/
def allRecords (account : String) (resp : Option AccountDataCell) :
    Except DasError (String → Option String) :=
  (getAccountData account resp).map (fun data => allRecordsMapOf data.records)

/-- record: lower-cases the key, reads the flattened map and throws
RecordNotFound when the read value is falsy (absent, or present with the
empty string as value). -/
def record (account key : String) (resp : Option AccountDataCell) :
    Except DasError String :=
  (allRecords account resp).bind (fun m =>
    match m (jsToLower key) with
    | some v =>
      if v = "" then
        .error (.resolution
          { code := .RecordNotFound, domain := account, recordName := some (jsToLower key) })
      else .ok v
    | none =>
      .error (.resolution
        { code := .RecordNotFound, domain := account, recordName := some (jsToLower key) }))

/-- records: the reduce loop assigns, for each requested key in order, the
value (records[key] || "") under the requested key itself (which is not
lower-cased). -/
def records (account : String) (keys : List String) (resp : Option AccountDataCell) :
    Except DasError (String → Option String) :=
  (allRecords account resp).map (fun m =>
    jsObjFromList (fun key => key) (fun key => jsOrEmpty (m key)) keys)

/-- allReverse: the das_getAddressAccount response is passed in as its
account_data list; the method returns the account field of each entry in
response order. -/
def allReverse (_address : String) (resp : List ReverseAccountItem) : List String :=
  resp.map (fun a => a.account)

/-- reverse: throws a plain Error unless the ticker is contained in the
array literal, then returns the element at index 0 of allReverse (undefined,
modelled none, when the list is empty). -/
def reverse (address currencyTicker : String) (resp : List ReverseAccountItem) :
    Except DasError (Option String) :=
  if !((["ETH", "CKB"] : List String).contains currencyTicker) then
    .error (.jsError "Das does not support any chain other than CKB and ETH")
  else
    .ok (allReverse address resp).head?

/-- Boolean(accountData) from the source: an object is always truthy in
JavaScript. -/
def jsBooleanOfAccountData (_ : AccountData) : Bool := true

/-- isRegistered as written in the source: it awaits getAccountData with no
try or catch around it, then returns Boolean(accountData). -/
def isRegistered (account : String) (resp : Option AccountDataCell) :
    Except DasError Bool :=
  (getAccountData account resp).map (fun accountData => jsBooleanOfAccountData accountData)

/-- The resolver capability stub. -/
def resolver (account : String) : Except DasError String :=
  .error (.resolution { code := .UnsupportedMethod, domain := account, methodName := some "resolver" })

/-- The twitter capability stub. -/
def twitter (account : String) : Except DasError String :=
  .error (.resolution { code := .UnsupportedMethod, domain := account, methodName := some "twitter" })

/-- The childhash capability stub: the error carries the label argument as
the domain. -/
def childhash (_parentHash label : String) : Except DasError String :=
  .error (.resolution { code := .UnsupportedMethod, domain := label, methodName := some "childhash" })

/-! ## Aggregate account view -/

structure ConstructedAccount where
  account : String
  avatar : String
  profile : String → Option AccountRecord
  address : String → Option AccountRecord
  dweb : String → Option AccountRecord
  custom : String → Option AccountRecord
  profiles : List AccountRecord
  addresses : List AccountRecord
  dwebs : List AccountRecord
  customs : List AccountRecord
  records : List AccountRecord

/-- The inner reduce of the account method: assign each record of the group
under its strippedKey, so the last record with a given strippedKey wins. -/
def resolveOneFromRecords (records : List AccountRecord) : String → Option AccountRecord :=
  jsObjFromList (fun r => r.strippedKey) (fun r => r) records

/-- The account method: resolve, partition the records by type into the four
named groups, build the last-wins map and the ordered list per group, and
derive the avatar from the fixed base path and the raw account argument. -/
def account (account : String) (resp : Option AccountDataCell) :
    Except DasError ConstructedAccount :=
  (getAccountData account resp).map (fun accountData =>
    let profiles := accountData.records.filter (fun r => r.type = AccountRecordTypes.profile)
    let addresses := accountData.records.filter (fun r => r.type = AccountRecordTypes.address)
    let dwebs := accountData.records.filter (fun r => r.type = AccountRecordTypes.dweb)
    let customs := accountData.records.filter (fun r => r.type = AccountRecordTypes.custom)
    { account := accountData.account
      avatar := "https://identicons.da.systems/identicon/" ++ account
      profile := resolveOneFromRecords profiles
      address := resolveOneFromRecords addresses
      dweb := resolveOneFromRecords dwebs
      custom := resolveOneFromRecords customs
      profiles := profiles
      addresses := addresses
      dwebs := dwebs
      customs := customs
      records := accountData.records })

/-! ## Spec-side definitions and concrete inputs used by the theorems -/

/-- Stated from the claim wording: the case-insensitive flattened map of the
records, where a later record overwrites an earlier record sharing the same
lower-cased key. -/
def specFlattenValue (records : List AccountRecord) (k : String) : Option String :=
  ((records.filter (fun r => jsToLower r.key = k)).getLast?).map (fun r => r.value)

def cellC3 : AccountDataCell :=
  ⟨{ account := "acc.bit"
     owner_lock_args_hex := "0x01"
     records := [{ key := "custom.x", value := "", ttl := "300" }] }⟩

def cellC3W : AccountDataCell :=
  ⟨{ account := "acc2.bit"
     owner_lock_args_hex := "0x02"
     records := [{ key := "profile.Email", value := "old", ttl := "300" },
                 { key := "Profile.email", value := "new", ttl := "300" }] }⟩

def cellC7 : AccountDataCell :=
  ⟨{ account := "w7.bit", owner_lock_args_hex := "0x00", records := [] }⟩

def cellC10 : AccountDataCell :=
  ⟨{ account := "w10.bit"
     owner_lock_args_hex := "0x00"
     records := [{ key := "address.eth", value := "0xfeed", ttl := "300" }] }⟩

def cellC6 : AccountDataCell :=
  ⟨{ account := "w6.bit"
     owner_lock_args_hex := "0x00"
     records := [{ key := "profile.twitter", value := "first", ttl := "300" },
                 { key := "profile.twitter", value := "second", ttl := "300" }] }⟩

def recC6first : AccountRecord :=
  { key := "profile.twitter", value := "first", ttl := .num 300
    type := "profile", strippedKey := "twitter" }

def recC6second : AccountRecord :=
  { key := "profile.twitter", value := "second", ttl := .num 300
    type := "profile", strippedKey := "twitter" }

/-- Stated from the amended claim wording: the effective network, which is
mainnet when the network option is absent or the empty string, and the given
value otherwise. -/
def specEffectiveNetwork (source : DasSource) : String :=
  match source.network with
  | none => "mainnet"
  | some s => if s = "" then "mainnet" else s

def sourceC8W : DasSource :=
  { url := some "https://indexer.da.systems", network := none, provider := none }

/-! ## Helper lemmas -/

/-! ## General lemmas about the JavaScript object model -/

theorem jsObjFromList_step {α β : Type} (keyOf : α → String) (valOf : α → β)
    (l : List α) (m : String → Option β) (k : String) :
    (l.foldl (fun m r => fun q => if q = keyOf r then some (valOf r) else m q) m) k
      = match (l.filter (fun r => keyOf r = k)).getLast? with
        | some r => some (valOf r)
        | none => m k := by
  induction l generalizing m with
  | nil => simp
  | cons a t ih =>
    rw [List.foldl_cons, ih]
    rcases ht : (t.filter (fun r => keyOf r = k)).getLast? with _ | r
    · rw [List.getLast?_eq_none_iff] at ht
      by_cases ha : keyOf a = k
      · rw [List.filter_cons_of_pos (by simpa using ha), ht]
        simp [ha]
      · rw [List.filter_cons_of_neg (by simpa using ha), ht]
        simp only [List.getLast?_nil]
        exact if_neg (fun h => ha h.symm)
    · by_cases ha : keyOf a = k
      · rw [List.filter_cons_of_pos (by simpa using ha)]
        have hne : t.filter (fun r => keyOf r = k) ≠ [] := by
          intro h
          rw [h] at ht
          exact Option.noConfusion ht
        rw [show (a :: t.filter (fun r => keyOf r = k)) = [a] ++ t.filter (fun r => keyOf r = k) from rfl,
          List.getLast?_append, ht]
        rfl
      · rw [List.filter_cons_of_neg (by simpa using ha), ht]

theorem jsObjFromList_apply {α β : Type} (keyOf : α → String) (valOf : α → β)
    (l : List α) (k : String) :
    jsObjFromList keyOf valOf l k
      = ((l.filter (fun r => keyOf r = k)).getLast?).map valOf := by
  rw [jsObjFromList, jsObjFromList_step]
  rcases (l.filter (fun r => keyOf r = k)).getLast? with _ | r <;> rfl

theorem filter_getLast?_of_sat {α : Type} (p : α → Bool) (l : List α) (j : Nat)
    (hj : j < l.length) (hpj : p (l.get ⟨j, hj⟩) = true)
    (hafter : ∀ x ∈ l.drop (j + 1), p x = false) :
    (l.filter p).getLast? = some (l.get ⟨j, hj⟩) := by
  have hsplit : l = l.take j ++ l.get ⟨j, hj⟩ :: l.drop (j + 1) := by
    conv_lhs => rw [← List.take_append_drop j l]
    rw [List.drop_eq_getElem_cons hj, List.get_eq_getElem]
  have hnil : (l.drop (j + 1)).filter p = [] := List.filter_eq_nil_iff.mpr
    (fun x hx => by simp [hafter x hx])
  conv_lhs => rw [hsplit]
  rw [List.filter_append, List.filter_cons_of_pos hpj, hnil]
  exact List.getLast?_concat _

theorem filter_self_getLast (keys : List String) (k : String) (hk : k ∈ keys) :
    (keys.filter (fun x => x = k)).getLast? = some k := by
  have hne : keys.filter (fun x => x = k) ≠ [] := by
    intro h
    rw [List.filter_eq_nil_iff] at h
    exact h k hk (by simp)
  have h1 := List.getLast?_eq_getLast _ hne
  have h2 := List.getLast_mem hne
  rw [List.mem_filter] at h2
  rw [h1, of_decide_eq_true h2.2]

theorem jsOrEmpty_eq_getD (o : Option String) : jsOrEmpty o = o.getD "" := by
  rcases o with _ | v
  · rfl
  · by_cases hv : v = "" <;> simp [jsOrEmpty, hv]

theorem jsTruthyOptStr_eq_false_iff (o : Option String) :
    jsTruthyOptStr o = false ↔ (o = none ∨ o = some "") := by
  rcases o with _ | s
  · simp [jsTruthyOptStr]
  · by_cases hs : s = "" <;> simp [jsTruthyOptStr, hs]

theorem string_contains_eq_decide_mem (l : List String) (a : String) :
    l.contains a = decide (a ∈ l) := by
  simp [List.contains]

/-! ## Lemmas about the ASCII lower-casing -/

theorem char_toNat_ofNat_of_valid (n : Nat) (h : n.isValidChar) :
    (Char.ofNat n).toNat = n := by
  rw [Char.ofNat, dif_pos h]
  simp [Char.ofNatAux, Char.toNat, UInt32.toNat]

theorem isAsciiUpperChar_jsCharToLower (c : Char) :
    isAsciiUpperChar (jsCharToLower c) = false := by
  unfold jsCharToLower isAsciiUpperChar
  by_cases h : 65 ≤ c.toNat ∧ c.toNat ≤ 90
  · rw [if_pos h]
    have hv : (c.toNat + 32).isValidChar := Or.inl (by omega)
    rw [char_toNat_ofNat_of_valid _ hv]
    simp only [decide_eq_false_iff_not]
    omega
  · rw [if_neg h]
    simp only [decide_eq_false_iff_not]
    exact h

theorem jsCharToLower_of_not_upper (c : Char) (h : isAsciiUpperChar c = false) :
    jsCharToLower c = c := by
  unfold jsCharToLower
  unfold isAsciiUpperChar at h
  rw [decide_eq_false_iff_not] at h
  exact if_neg h

theorem jsCharToLower_idem (c : Char) :
    jsCharToLower (jsCharToLower c) = jsCharToLower c :=
  jsCharToLower_of_not_upper _ (isAsciiUpperChar_jsCharToLower c)

theorem hasAsciiUpper_jsToLower (s : String) : hasAsciiUpper (jsToLower s) = false := by
  unfold hasAsciiUpper jsToLower
  rw [show (String.mk (s.data.map jsCharToLower)).data = s.data.map jsCharToLower from rfl]
  rw [List.any_map]
  rw [List.any_eq_false]
  intro x _
  rw [Function.comp_apply, isAsciiUpperChar_jsCharToLower]
  exact Bool.false_ne_true

theorem jsToLower_idem (s : String) : jsToLower (jsToLower s) = jsToLower s := by
  unfold jsToLower
  rw [show (String.mk (s.data.map jsCharToLower)).data = s.data.map jsCharToLower from rfl]
  rw [List.map_map]
  exact congrArg String.mk (List.map_congr_left (fun c _ => jsCharToLower_idem c))

theorem jsToLower_ne_of_hasAsciiUpper (s k : String) (h : hasAsciiUpper k = true) :
    jsToLower s ≠ k := by
  intro heq
  have := hasAsciiUpper_jsToLower s
  rw [heq, h] at this
  exact Bool.noConfusion this

/-! ## Lemmas about the domain syntax test -/

theorem isDotBitAt_iff (l : List Char) :
    isDotBitAt l = true ↔ ∃ suf, l = '.' :: 'b' :: 'i' :: 't' :: suf := by
  unfold isDotBitAt
  rw [ List.isPrefixOf_iff_prefix]
  constructor
  · rintro ⟨t, ht⟩
    exact ⟨t, ht.symm⟩
  · rintro ⟨suf, rfl⟩
    exact ⟨suf, rfl⟩

theorem isLineTerminator_eq_false_iff (c : Char) :
    isLineTerminator c = false ↔
      (c ≠ '\n' ∧ c ≠ '\r' ∧ c.toNat ≠ 0x2028 ∧ c.toNat ≠ 0x2029) := by
  simp [isLineTerminator, and_assoc]

theorem hasCharThenDotBit_iff (l : List Char) :
    hasCharThenDotBit l = true ↔
      ∃ pre c suf, l = pre ++ c :: '.' :: 'b' :: 'i' :: 't' :: suf ∧
        isLineTerminator c = false := by
  induction l with
  | nil =>
    simp [hasCharThenDotBit]
  | cons a rest ih =>
    rw [hasCharThenDotBit]
    simp only [Bool.or_eq_true, Bool.and_eq_true, Bool.not_eq_eq_eq_not, Bool.not_true]
    constructor
    · intro h
      rcases h with ⟨hne, hdb⟩ | h2
      · obtain ⟨suf, rfl⟩ := (isDotBitAt_iff rest).1 hdb
        exact ⟨[], a, suf, rfl, hne⟩
      · obtain ⟨pre, c, suf, heq, hc⟩ := ih.1 h2
        exact ⟨a :: pre, c, suf, by rw [heq]; rfl, hc⟩
    · rintro ⟨pre, c, suf, heq, hc⟩
      cases pre with
      | nil =>
        rw [List.nil_append, List.cons.injEq] at heq
        obtain ⟨rfl, rfl⟩ := heq
        exact Or.inl ⟨hc, (isDotBitAt_iff _).2 ⟨suf, rfl⟩⟩
      | cons p pre2 =>
        rw [List.cons_append, List.cons.injEq] at heq
        obtain ⟨rfl, heq2⟩ := heq
        exact Or.inr (ih.2 ⟨pre2, c, suf, heq2, hc⟩)

theorem allRecordsMapOf_eq_specFlatten (records : List AccountRecord) (k : String) :
    allRecordsMapOf records k = specFlattenValue records k :=
  jsObjFromList_apply _ _ _ _

theorem resolveOneFromRecords_apply (l : List AccountRecord) (k : String) :
    resolveOneFromRecords l k
      = ((l.filter (fun r => r.strippedKey = k)).getLast?).map (fun r => r) :=
  jsObjFromList_apply _ _ _ _

/-! ## The claims -/

/-- C1: the claim says isRegistered translates an UnregisteredDomain failure
of getAccountData into the result false.  The source has no try or catch, so
at the failing input (an account whose transport response carries no data
payload) the UnregisteredDomain error propagates out of isRegistered, and no
boolean at all is returned. -/
theorem isRegistered_unregistered_propagates :
    isRegistered "unregistered.bit" none
        = .error (.resolution { code := .UnregisteredDomain, domain := "unregistered.bit" }) ∧
    ∀ b : Bool, isRegistered "unregistered.bit" none ≠ .ok b :=
  ⟨rfl, fun _ h => Except.noConfusion h⟩

/-- C2 counterexample: the regex of isSupportedDomain is unanchored, so the
input "a.bitx", whose labels are all non-empty but which does not end with
the suffix ".bit", is nevertheless accepted; the claim requires false
there. -/
theorem isSupportedDomain_suffix_counterexample :
    isSupportedDomain "a.bitx" = true ∧ specEndsWithDotBit "a.bitx" = false ∧
    (splitOnDotChars "a.bitx".data).all (fun v => v.length != 0) = true := by
  decide

/-- C2 (amended): isSupportedDomain s is true iff s contains the substring
".bit" immediately preceded by at least one character that is not an
ECMAScript LineTerminator, that is, not LF, CR, U+2028 or U+2029 (the
unanchored regex test, whose dot matches any other character), and every
label produced by splitting s on "." is non-empty. -/
theorem isSupportedDomain_characterization (s : String) :
    isSupportedDomain s = true ↔
      ((∃ pre c suf, s.data = pre ++ c :: '.' :: 'b' :: 'i' :: 't' :: suf ∧
          c ≠ '\n' ∧ c ≠ '\r' ∧ c.toNat ≠ 0x2028 ∧ c.toNat ≠ 0x2029) ∧
        ∀ lab ∈ jsSplitDot s, lab ≠ "") := by
  unfold isSupportedDomain
  rw [Bool.and_eq_true, hasCharThenDotBit_iff]
  apply and_congr
  · exact exists_congr fun pre => exists_congr fun c => exists_congr fun suf =>
      and_congr_right fun _ => isLineTerminator_eq_false_iff c
  rw [List.all_eq_true]
  constructor
  · intro h lab hlab
    rw [jsSplitDot, List.mem_map] at hlab
    obtain ⟨l2, hl2, rfl⟩ := hlab
    have hlen := h l2 hl2
    intro hmk
    have hdat : l2 = [] := congrArg String.data hmk
    rw [hdat] at hlen
    simp at hlen
  · intro h x hx
    have hne := h (String.mk x) (by rw [jsSplitDot]; exact List.mem_map_of_mem _ hx)
    simp only [bne_iff_ne, ne_eq, List.length_eq_zero]
    intro hx0
    exact hne (by rw [hx0])

/-- C4: getAccountData fails with resolution error kind UnregisteredDomain
exactly when the response carries no data payload; otherwise it returns the
account data with, for every record, ttl converted by the Number conversion,
type the first dot-separated segment of the key, and strippedKey the
remaining segments rejoined with ".". -/
theorem getAccountData_spec (acct : String) (resp : Option AccountDataCell) :
    (resp = none →
      getAccountData acct resp
        = .error (.resolution { code := .UnregisteredDomain, domain := acct })) ∧
    (∀ e, getAccountData acct resp = .error e →
      resp = none ∧ e = .resolution { code := .UnregisteredDomain, domain := acct }) ∧
    (∀ cell, resp = some cell →
      getAccountData acct resp = .ok
        { account := cell.account_data.account
          owner_lock_args_hex := cell.account_data.owner_lock_args_hex
          records := cell.account_data.records.map (fun r =>
            { key := r.key
              value := r.value
              ttl := jsNumber r.ttl
              type := (jsSplitDot r.key).headD ""
              strippedKey := joinDot (jsSplitDot r.key).tail }) }) := by
  refine ⟨?_, ?_, ?_⟩
  · rintro rfl
    rfl
  · intro e he
    cases resp with
    | none =>
      refine ⟨rfl, ?_⟩
      injection he with h
      exact h.symm
    | some cell => exact absurd he (by simp [getAccountData])
  · rintro cell rfl
    rfl

/-- C5: reverse fails with the unsupported-currency error unless the ticker
is exactly ETH or CKB; for a supported ticker it returns the element at
index 0 of allReverse, which is null (none) when the reverse list is
empty. -/
theorem reverse_spec (address currencyTicker : String) (resp : List ReverseAccountItem) :
    (currencyTicker ≠ "ETH" → currencyTicker ≠ "CKB" →
      reverse address currencyTicker resp
        = .error (.jsError "Das does not support any chain other than CKB and ETH")) ∧
    ((currencyTicker = "ETH" ∨ currencyTicker = "CKB") →
      reverse address currencyTicker resp = .ok (allReverse address resp).head? ∧
      (resp = [] → reverse address currencyTicker resp = .ok none)) := by
  constructor
  · intro h1 h2
    have hc : (["ETH", "CKB"] : List String).contains currencyTicker = false := by
      rw [string_contains_eq_decide_mem, decide_eq_false_iff_not]
      intro hm
      simp only [List.mem_cons, List.not_mem_nil, or_false] at hm
      rcases hm with h | h
      · exact h1 h
      · exact h2 h
    unfold reverse
    rw [hc]
    rfl
  · intro h
    have hc : (["ETH", "CKB"] : List String).contains currencyTicker = true := by
      rw [string_contains_eq_decide_mem, decide_eq_true_eq]
      rcases h with rfl | rfl
      · exact List.mem_cons_self _ _
      · exact List.mem_cons_of_mem _ (List.mem_cons_self _ _)
    have hmain : reverse address currencyTicker resp = .ok (allReverse address resp).head? := by
      unfold reverse
      rw [hc]
      rfl
    refine ⟨hmain, ?_⟩
    rintro rfl
    rw [hmain]
    rfl

/-- C9: the resolver, twitter and childhash capability stubs always fail
with resolution error kind UnsupportedMethod carrying the attempted domain
(the label argument, for childhash) and the method name, and none of them
can return a value. -/
theorem capability_stubs_spec (acct parentHash label : String) :
    resolver acct = .error (.resolution
      { code := .UnsupportedMethod, domain := acct, methodName := some "resolver" }) ∧
    twitter acct = .error (.resolution
      { code := .UnsupportedMethod, domain := acct, methodName := some "twitter" }) ∧
    childhash parentHash label = .error (.resolution
      { code := .UnsupportedMethod, domain := label, methodName := some "childhash" }) ∧
    (∀ v : String, resolver acct ≠ .ok v) ∧
    (∀ v : String, twitter acct ≠ .ok v) ∧
    (∀ v : String, childhash parentHash label ≠ .ok v) :=
  ⟨rfl, rfl, rfl, fun _ h => Except.noConfusion h, fun _ h => Except.noConfusion h,
    fun _ h => Except.noConfusion h⟩

/-! ## C3: single-record lookup -/

/-- C3 counterexample: the account cellC3 carries one record whose key
"custom.x" is present in the flattened map with the empty string as value;
the claim requires record to return that mapped value, but the falsiness
test of the source throws RecordNotFound. -/
theorem record_empty_value_counterexample :
    record "acc.bit" "custom.x" (some cellC3)
        = .error (.resolution
          { code := .RecordNotFound, domain := "acc.bit", recordName := some "custom.x" }) ∧
    allRecordsMapOf (cellC3.account_data.records.map normalizeRecord) "custom.x" = some "" := by
  constructor
  · rfl
  · rfl

/-- C3 (amended): record lower-cases the key and reads the case-insensitive
last-wins flattened map; it returns the mapped value when the lower-cased
key maps to a non-empty value, and fails with RecordNotFound exactly when
the lower-cased key is absent from the map or maps to the empty string. -/
theorem record_amended (acct key : String) (cell : AccountDataCell) :
    (∀ v : String, v ≠ "" →
      (record acct key (some cell) = .ok v ↔
        specFlattenValue (cell.account_data.records.map normalizeRecord) (jsToLower key)
          = some v)) ∧
    (record acct key (some cell)
        = .error (.resolution
          { code := .RecordNotFound, domain := acct, recordName := some (jsToLower key) }) ↔
      (specFlattenValue (cell.account_data.records.map normalizeRecord) (jsToLower key)
          = none ∨
        specFlattenValue (cell.account_data.records.map normalizeRecord) (jsToLower key)
          = some "")) := by
  have hrec : record acct key (some cell)
      = match allRecordsMapOf (cell.account_data.records.map normalizeRecord) (jsToLower key) with
        | some v =>
          if v = "" then
            .error (.resolution
              { code := .RecordNotFound, domain := acct, recordName := some (jsToLower key) })
          else .ok v
        | none =>
          .error (.resolution
            { code := .RecordNotFound, domain := acct, recordName := some (jsToLower key) }) := rfl
  rw [allRecordsMapOf_eq_specFlatten] at hrec
  rcases hm : specFlattenValue (cell.account_data.records.map normalizeRecord) (jsToLower key)
    with _ | v
  · have hval : record acct key (some cell)
        = .error (.resolution
          { code := .RecordNotFound, domain := acct, recordName := some (jsToLower key) }) := by
      rw [hrec, hm]
    refine ⟨fun w hw => ?_, ?_⟩
    · rw [hval]
      simp
    · rw [hval]
      simp
  · by_cases hv : v = ""
    · subst hv
      have hval : record acct key (some cell)
          = .error (.resolution
            { code := .RecordNotFound, domain := acct, recordName := some (jsToLower key) }) := by
        rw [hrec, hm]
        rfl
      refine ⟨fun w hw => ?_, ?_⟩
      · rw [hval]
        constructor
        · intro h
          exact Except.noConfusion h
        · intro h
          exact absurd (Option.some.inj h).symm hw
      · rw [hval]
        simp
    · have hval : record acct key (some cell) = .ok v := by
        rw [hrec, hm]
        simp [hv]
      refine ⟨fun w hw => ?_, ?_⟩
      · rw [hval]
        simp
      · rw [hval]
        simp [hv]

/-- C3 witness: at a concrete account with two records sharing the same
lower-cased key, record returns the value of the later record. -/
theorem record_amended_witness :
    record "acc2.bit" "PROFILE.EMAIL" (some cellC3W) = .ok "new" :=
  ((record_amended "acc2.bit" "PROFILE.EMAIL" cellC3W).1 "new" (by decide)).mpr (by decide)

/-! ## C7: bulk lookup -/

/-- C7: records never fails because of a missing key: for every requested
key the returned map binds the key, to the flattened-map value when present
and to the empty string when absent. -/
theorem records_spec (acct : String) (keys : List String) (cell : AccountDataCell)
    (k : String) (hk : k ∈ keys) :
    ∃ m, records acct keys (some cell) = .ok m ∧
      m k = some ((allRecordsMapOf (cell.account_data.records.map normalizeRecord) k).getD "") ∧
      (allRecordsMapOf (cell.account_data.records.map normalizeRecord) k = none →
        m k = some "") := by
  have hm : jsObjFromList (fun key => key)
      (fun key => jsOrEmpty (allRecordsMapOf (cell.account_data.records.map normalizeRecord) key))
      keys k
      = some ((allRecordsMapOf (cell.account_data.records.map normalizeRecord) k).getD "") := by
    rw [jsObjFromList_apply, filter_self_getLast keys k hk]
    simp [jsOrEmpty_eq_getD]
  refine ⟨_, rfl, ?_, ?_⟩
  · exact hm
  · intro h0
    exact hm.trans (by rw [h0]; rfl)

/-- C7 witness: at an account with no records, the bulk lookup still binds
the requested key "missing.key", to the empty string. -/
theorem records_spec_witness :
    ∃ m, records "w7.bit" ["missing.key"] (some cellC7) = .ok m ∧
      m "missing.key" = some "" := by
  obtain ⟨m, h1, _, h3⟩ := records_spec "w7.bit" ["missing.key"] cellC7 "missing.key" (by decide)
  exact ⟨m, h1, h3 rfl⟩

/-! ## C10: case sensitivity of the bulk lookup keys -/

/-- C10: the flattened map is keyed only by lower-cased record keys and the
bulk lookup reads the requested key verbatim, so a requested key containing
an ASCII uppercase letter is bound to the empty string whatever the record
set is; record, by contrast, lower-cases its key first, so it agrees with
itself on the lower-cased key. -/
theorem records_uppercase_key_spec (acct k : String) (keys : List String)
    (cell : AccountDataCell) (hk : k ∈ keys) (hup : hasAsciiUpper k = true) :
    (∃ m, records acct keys (some cell) = .ok m ∧ m k = some "") ∧
    (∀ key2 : String, record acct key2 (some cell) = record acct (jsToLower key2) (some cell)) := by
  constructor
  · have h0 : allRecordsMapOf (cell.account_data.records.map normalizeRecord) k = none := by
      rw [allRecordsMapOf, jsObjFromList_apply]
      have hnil : (cell.account_data.records.map normalizeRecord).filter
          (fun r => jsToLower r.key = k) = [] := by
        rw [List.filter_eq_nil_iff]
        intro r _
        simp only [decide_eq_true_eq]
        exact jsToLower_ne_of_hasAsciiUpper _ _ hup
      rw [hnil]
      rfl
    have hmk : jsObjFromList (fun key => key)
        (fun key => jsOrEmpty (allRecordsMapOf (cell.account_data.records.map normalizeRecord) key))
        keys k = some "" := by
      rw [jsObjFromList_apply, filter_self_getLast keys k hk]
      simp [jsOrEmpty_eq_getD, h0]
    exact ⟨_, rfl, hmk⟩
  · intro key2
    unfold record
    rw [jsToLower_idem]

/-- C10 witness: the account cellC10 does carry an address record under the
lower-cased key "address.eth", yet the bulk lookup maps the requested key
"Address.ETH" to the empty string. -/
theorem records_uppercase_key_witness :
    (∃ m, records "w10.bit" ["Address.ETH"] (some cellC10) = .ok m ∧
      m "Address.ETH" = some "") ∧
    (∀ key2 : String,
      record "w10.bit" key2 (some cellC10) = record "w10.bit" (jsToLower key2) (some cellC10)) :=
  records_uppercase_key_spec "w10.bit" "Address.ETH" ["Address.ETH"] cellC10
    (by decide) (by decide)

/-! ## C6: the aggregate account view -/

/-- C6: for a resolved account holding two profile records with the same
strippedKey, the profile group map of the constructed account holds only the
later of the two (the last profile record with that strippedKey), while the
profiles ordered list is the order-preserving filter of the records and so
contains both; the avatar is the fixed base path concatenated with the raw
account string. -/
theorem account_aggregate_spec (acct : String) (cell : AccountDataCell)
    (recs : List AccountRecord) (hrecs : recs = cell.account_data.records.map normalizeRecord)
    (i j : Nat) (hi : i < recs.length) (hj : j < recs.length) (_hij : i < j)
    (ri rj : AccountRecord) (hri : recs.get ⟨i, hi⟩ = ri) (hrj : recs.get ⟨j, hj⟩ = rj)
    (hpi : ri.type = AccountRecordTypes.profile) (hpj : rj.type = AccountRecordTypes.profile)
    (k : String) (_hki : ri.strippedKey = k) (hkj : rj.strippedKey = k)
    (hlast : ∀ r ∈ recs.drop (j + 1),
      ¬(r.type = AccountRecordTypes.profile ∧ r.strippedKey = k)) :
    ∃ ca : ConstructedAccount,
      account acct (some cell) = .ok ca ∧
      ca.profile k = some rj ∧
      ri ∈ ca.profiles ∧ rj ∈ ca.profiles ∧
      ca.profiles = recs.filter (fun r => r.type = AccountRecordTypes.profile) ∧
      List.Sublist ca.profiles recs ∧
      ca.avatar = "https://identicons.da.systems/identicon/" ++ acct := by
  subst hrecs
  refine ⟨_, rfl, ?_, ?_, ?_, rfl, List.filter_sublist _, rfl⟩
  · show resolveOneFromRecords
        ((cell.account_data.records.map normalizeRecord).filter
          (fun r => r.type = AccountRecordTypes.profile)) k
      = some rj
    rw [resolveOneFromRecords_apply, List.filter_filter]
    have hsat : (fun r => decide (r.strippedKey = k) && decide (r.type = AccountRecordTypes.profile))
        ((cell.account_data.records.map normalizeRecord).get ⟨j, hj⟩) = true := by
      rw [hrj]
      simp [hkj, hpj]
    have hafter : ∀ x ∈ (cell.account_data.records.map normalizeRecord).drop (j + 1),
        (fun r => decide (r.strippedKey = k) && decide (r.type = AccountRecordTypes.profile)) x
          = false := by
      intro x hx
      have hx2 := hlast x hx
      by_cases h1 : x.strippedKey = k <;> by_cases h2 : x.type = AccountRecordTypes.profile
      · exact absurd ⟨h2, h1⟩ hx2
      · simp [h1, h2]
      · simp [h1]
      · simp [h1]
    rw [filter_getLast?_of_sat _ _ j hj hsat hafter, hrj]
    rfl
  · show ri ∈ (cell.account_data.records.map normalizeRecord).filter
      (fun r => r.type = AccountRecordTypes.profile)
    exact List.mem_filter.mpr ⟨hri ▸ List.get_mem _ _ _, by simp [hpi]⟩
  · show rj ∈ (cell.account_data.records.map normalizeRecord).filter
      (fun r => r.type = AccountRecordTypes.profile)
    exact List.mem_filter.mpr ⟨hrj ▸ List.get_mem _ _ _, by simp [hpj]⟩

/-- C6 witness: at a concrete account with two profile records sharing the
strippedKey "twitter", the profile map holds only the later record while the
profiles list holds both, and the avatar is the base path plus the raw
account string. -/
theorem account_aggregate_witness :
    ∃ ca : ConstructedAccount,
      account "w6.bit" (some cellC6) = .ok ca ∧
      ca.profile "twitter" = some recC6second ∧
      recC6first ∈ ca.profiles ∧ recC6second ∈ ca.profiles ∧
      ca.profiles = (cellC6.account_data.records.map normalizeRecord).filter
        (fun r => r.type = AccountRecordTypes.profile) ∧
      List.Sublist ca.profiles (cellC6.account_data.records.map normalizeRecord) ∧
      ca.avatar = "https://identicons.da.systems/identicon/" ++ "w6.bit" :=
  account_aggregate_spec "w6.bit" cellC6
    (cellC6.account_data.records.map normalizeRecord) rfl
    0 1 (by decide) (by decide) (by decide)
    recC6first recC6second (by decide) (by decide)
    (by decide) (by decide)
    "twitter" (by decide) (by decide)
    (by decide)

/-! ## C8: construction -/

/-- C8 counterexample: with url supplied as the empty string and no
provider, the claim (neither url nor provider supplied) requires
construction not to fail with UnspecifiedUrl, yet the constructor throws it
because the empty string is falsy; and with a provider supplied and network
supplied as the empty string, the claim requires UnsupportedNetwork, yet
construction succeeds with the network defaulted to mainnet. -/
theorem construct_counterexample :
    DasService.construct { url := some "", network := none, provider := none }
        = .error (.configuration { code := .UnspecifiedUrl, method := "DAS" }) ∧
    (some "" : Option String) ≠ none ∧
    DasService.construct { url := none, network := some "", provider := some (.injected 0) }
        = .ok { network := "mainnet", url := none, provider := .injected 0 } ∧
    ("" : String) ∉ (["mainnet", "testnet", "aggron"] : List String) := by
  refine ⟨rfl, by decide, rfl, by decide⟩

/-- C8 (amended): construction fails with UnspecifiedUrl exactly when the
url is absent or empty and the provider is absent; the effective network
defaults to mainnet when the network option is absent or empty; construction
fails with UnsupportedNetwork exactly when the first failure does not apply
and the effective network is not in the supported set; otherwise it succeeds
and stores the effective network, the url, and either the supplied provider
or a default transport bound to the url. -/
theorem construct_spec (source : DasSource) :
    (DasService.construct source
        = .error (.configuration { code := .UnspecifiedUrl, method := NamingServiceName.DAS }) ↔
      ((source.url = none ∨ source.url = some "") ∧ source.provider = none)) ∧
    (DasService.construct source
        = .error (.configuration { code := .UnsupportedNetwork, method := NamingServiceName.DAS }) ↔
      (¬((source.url = none ∨ source.url = some "") ∧ source.provider = none) ∧
        specEffectiveNetwork source ∉ (["mainnet", "testnet", "aggron"] : List String))) ∧
    (¬((source.url = none ∨ source.url = some "") ∧ source.provider = none) →
      specEffectiveNetwork source ∈ (["mainnet", "testnet", "aggron"] : List String) →
      DasService.construct source = .ok
        { network := specEffectiveNetwork source
          url := source.url
          provider := source.provider.getD
            (Provider.fetchProvider NamingServiceName.DAS (source.url.getD "")) }) := by
  obtain ⟨u, n, p⟩ := source
  have hcond : (jsTruthyOptStr u || (Option.isSome p)) = false ↔
      ((u = none ∨ u = some "") ∧ p = none) := by
    rw [Bool.or_eq_false_iff]
    rw [jsTruthyOptStr_eq_false_iff]
    constructor
    · rintro ⟨h1, h2⟩
      exact ⟨h1, Option.not_isSome_iff_eq_none.mp (by rw [h2]; exact Bool.false_ne_true)⟩
    · rintro ⟨h1, h2⟩
      subst h2
      exact ⟨h1, rfl⟩
  have hnet : (if jsTruthyOptStr n then n.getD "" else "mainnet")
      = specEffectiveNetwork { url := u, network := n, provider := p } := by
    rcases n with _ | s
    · rfl
    · by_cases hs : s = "" <;> simp [jsTruthyOptStr, specEffectiveNetwork, hs]
  have hguard : ∀ m : String, DasSupportedNetwork.guard m
      = decide (m ∈ (["mainnet", "testnet", "aggron"] : List String)) := by
    intro m
    rw [DasSupportedNetwork.guard, string_contains_eq_decide_mem]
  cases htr : (jsTruthyOptStr u || (Option.isSome p)) with
  | false =>
    have hc : ((u = none ∨ u = some "") ∧ p = none) := hcond.mp htr
    have hval : DasService.construct { url := u, network := n, provider := p }
        = .error (.configuration { code := .UnspecifiedUrl, method := NamingServiceName.DAS }) := by
      simp [DasService.construct, htr]
    refine ⟨?_, ?_, ?_⟩
    · rw [hval]
      exact ⟨fun _ => hc, fun _ => rfl⟩
    · rw [hval]
      constructor
      · intro h
        injection h with h2
        injection h2 with h3
        exact absurd (congrArg ConfigurationError.code h3) (by decide)
      · rintro ⟨hne, _⟩
        exact absurd hc hne
    · intro hne _
      exact absurd hc hne
  | true =>
    have hnc : ¬((u = none ∨ u = some "") ∧ p = none) := by
      intro hc
      rw [hcond.mpr hc] at htr
      exact Bool.noConfusion htr
    by_cases hg : specEffectiveNetwork { url := u, network := n, provider := p }
        ∈ (["mainnet", "testnet", "aggron"] : List String)
    · have hgb : DasSupportedNetwork.guard
          (specEffectiveNetwork { url := u, network := n, provider := p }) = true := by
        rw [hguard, decide_eq_true_eq]
        exact hg
      have hval : DasService.construct { url := u, network := n, provider := p }
          = .ok { network := specEffectiveNetwork { url := u, network := n, provider := p }
                  url := u
                  provider := p.getD (Provider.fetchProvider NamingServiceName.DAS (u.getD "")) } := by
        simp [DasService.construct, htr, hnet, hgb]
      refine ⟨?_, ?_, ?_⟩
      · rw [hval]
        constructor
        · intro h
          exact Except.noConfusion h
        · intro hcc
          exact absurd hcc hnc
      · rw [hval]
        constructor
        · intro h
          exact Except.noConfusion h
        · rintro ⟨_, hnot⟩
          exact absurd hg hnot
      · intro _ _
        exact hval
    · have hgb : DasSupportedNetwork.guard
          (specEffectiveNetwork { url := u, network := n, provider := p }) = false := by
        rw [hguard, decide_eq_false_iff_not]
        exact hg
      have hval : DasService.construct { url := u, network := n, provider := p }
          = .error (.configuration
            { code := .UnsupportedNetwork, method := NamingServiceName.DAS }) := by
        simp [DasService.construct, htr, hnet, hgb]
      refine ⟨?_, ?_, ?_⟩
      · rw [hval]
        constructor
        · intro h
          injection h with h2
          injection h2 with h3
          exact absurd (congrArg ConfigurationError.code h3) (by decide)
        · intro hcc
          exact absurd hcc hnc
      · rw [hval]
        exact ⟨fun _ => ⟨hnc, hg⟩, fun _ => rfl⟩
      · intro _ hmem
        exact absurd hmem hg

/-- C8 witness: with a non-empty url, no provider and no network,
construction succeeds, defaults the network to mainnet and builds the
default transport bound to the url. -/
theorem construct_spec_witness :
    DasService.construct sourceC8W = .ok
      { network := specEffectiveNetwork sourceC8W
        url := sourceC8W.url
        provider := sourceC8W.provider.getD
          (Provider.fetchProvider NamingServiceName.DAS (sourceC8W.url.getD "")) } :=
  (construct_spec sourceC8W).2.2 (by decide) (by decide)

end Das
